import Mathlib

/-!
Verification development for the OpenSim SimulationUtilities core
(file OpenSim/Simulation/SimulationUtilities.h).

The development is a shallow embedding of the `analyze` template function
and of the helper utilities it relies on.  Table values (C++ doubles) are
embedded as rationals; SimTK vectors become lists of rationals; the C++
exception paths become an explicit error type returned through `Except`.
Functions whose bodies live in other translation units of the repository
(createSystemControlIndexMap, checkOrderSystemControls,
createSystemYIndexMap, createSyntheticIMUAccelerationSignals, the
TableReporter capture of one row per report-stage realization, and the
construction of one state per states-table row) are modelled from the
specification and from their doc comments in the header; each such
definition carries a doc comment starting with "Modelled from the spec".
-/

/-- A TimeSeriesTable: ordered column labels shared by all rows, the data
rows, and one time value per row. -/
structure TimeSeriesTable where
  columnLabels : List String
  rows : List (List ℚ)
  times : List ℚ
deriving DecidableEq

/-- One output exposed by a component of the model: its full path name,
whether its declared value type equals the template argument type T of the
`analyze` invocation (the C++ dynamic_cast test), and its value as a
function of the sample index (the evaluation itself is performed by the
external dynamics engine, so it is abstract data here). -/
structure AOutput where
  path : String
  typeMatch : Bool
  eval : Nat → ℚ

/-- The part of an OpenSim Model that `analyze` reads: the flattened list
of outputs of all components in traversal order, the control names in
model-declared actuator order and in flat control-vector order (used by
the order/consistency checker), and the set of component paths that exist
in the model (used to resolve discrete-variable column labels). -/
structure AModel where
  outputs : List AOutput
  declaredControlNames : List String
  systemControlNames : List String
  componentPaths : List String

/-- Events emitted by the embedded `analyze`, in the order the C++
statements execute: output registration (reporter.addToReport), the
type-mismatch warning (log_warn), attaching the reporter and re-running
initSystem (finalize), and the per-sample calls of the replay loop. -/
inductive Ev where
  | register (path : String)
  | warn (path : String)
  | finalize
  | reconstruct (i : Nat)
  | prescribe (i : Nat)
  | realizeVelocity (i : Nat)
  | setControls (i : Nat)
  | setDiscrete (i : Nat) (j : Nat)
  | realizeReport (i : Nat)
deriving DecidableEq

/-- The error surface of the embedded code.  The two row-count constructors
are the descriptive OPENSIM_THROW_IF messages of `analyze` (each carries
the two counts the message reports); `internalOrderMismatch` is the
exception of checkOrderSystemControls; `componentNotFound` is the
getComponent failure for a discrete-variable column label;
`outOfRange` is the std::out_of_range thrown by unordered_map::at for a
controls-table column label that names no model control; `vectorIndexOOB`
is the out-of-bounds SimTK::Vector element write (undefined behavior in
the C++). -/
inductive AErr where
  | rowCountMismatchControls (statesRows controlsRows : Nat)
  | rowCountMismatchDiscrete (discreteRows statesRows : Nat)
  | internalOrderMismatch
  | componentNotFound (path : String)
  | outOfRange (label : String)
  | vectorIndexOOB (idx len : Nat)
deriving DecidableEq

/-- Lookup in an association list from names to indices; the `some` branch
is unordered_map::find success, `none` is absence of the key. -/
def alookup : List (String × Nat) → String → Option Nat
  | [], _ => none
  | p :: rest, l => if p.1 = l then some p.2 else alookup rest l

/-- Pair each name with its position, starting at `k`. -/
def enumerateNames : List String → Nat → List (String × Nat)
  | [], _ => []
  | n :: ns, k => (n, k) :: enumerateNames ns (k + 1)

/-- Modelled from the spec: checkOrderSystemControls is declared in the
header (its body is in another translation unit); per its doc comment and
spec section 4.2 it throws an exception when the order of the controls in
the model is not the same as the order of the actuators in the model. -/
def checkOrderSystemControls (m : AModel) : Except AErr Unit :=
  if m.declaredControlNames = m.systemControlNames then Except.ok ()
  else Except.error AErr.internalOrderMismatch

/-- Modelled from the spec: createSystemControlIndexMap is declared in the
header (its body is in another translation unit); per its doc comment it
returns the index of each control variable in the vector returned by
Model::getControls keyed by control name, and throws when the actuator
order does not match the control order (the checker above). -/
def createSystemControlIndexMap (m : AModel) : Except AErr (List (String × Nat)) :=
  match checkOrderSystemControls m with
  | Except.error e => Except.error e
  | Except.ok _ => Except.ok (enumerateNames m.declaredControlNames 0)

/-- The innermost pattern loop of the output-collection phase of `analyze`
(header lines 239-252): for one output, try every pattern in order; on a
full regex match (`rmatch`, abstracting std::regex_match) with matching
type, emit a register event and record the output; on a match with a
mismatched type, emit a warning event only. -/
def matchOne (o : AOutput) (rmatch : String → String → Bool) :
    List String → List Ev × List AOutput
  | [] => ([], [])
  | p :: rest =>
    let t := matchOne o rmatch rest
    if rmatch o.path p then
      if o.typeMatch then (Ev.register o.path :: t.1, o :: t.2)
      else (Ev.warn o.path :: t.1, t.2)
    else t

/-- The output-collection phase of `analyze` (header lines 235-254): scan
every output of every component in traversal order, testing each against
every pattern. Returns the emitted events and the registered outputs in
registration order. -/
def collectOutputs (outs : List AOutput) (pats : List String)
    (rmatch : String → String → Bool) : List Ev × List AOutput :=
  match outs with
  | [] => ([], [])
  | o :: rest =>
    let h := matchOne o rmatch pats
    let t := collectOutputs rest pats rmatch
    (h.1 ++ t.1, h.2 ++ t.2)

/-- The paths of the register events of a trace, in order. -/
def registerEvents : List Ev → List String
  | [] => []
  | Ev.register p :: rest => p :: registerEvents rest
  | _ :: rest => registerEvents rest

/-- The per-sample controls-vector fill of `analyze` (header lines
311-316): for each controls-table column label in order, look the label up
in the control index map (unordered_map::at, which throws out_of_range on
a missing key) and write the row value at the found index into the
controls vector.  A write at an index outside the vector is undefined
behavior in the C++ (SimTK::Vector does not bound-check in release); it is
made an explicit error here. -/
def injectControls (map : List (String × Nat)) :
    List String → List ℚ → List ℚ → Except AErr (List ℚ)
  | [], _, cv => Except.ok cv
  | n :: ns, row, cv =>
    match alookup map n with
    | none => Except.error (AErr.outOfRange n)
    | some idx =>
      if idx < cv.length then
        injectControls map ns row.tail (cv.set idx (row.headD 0))
      else Except.error (AErr.vectorIndexOOB idx cv.length)

/-- Split a character list at every slash, keeping empty segments. -/
def splitSlash : List Char → List (List Char)
  | [] => [[]]
  | c :: rest =>
    let r := splitSlash rest
    if c = '/' then [] :: r
    else (c :: r.headD []) :: r.tail

/-- Rejoin path segments with slashes. -/
def joinSlash : List (List Char) → List Char
  | [] => []
  | [seg] => seg
  | seg :: rest => seg ++ '/' :: joinSlash rest

/-- The last path segment of a discrete-variable column label
(ComponentPath::getComponentName in header lines 292-294). -/
def discreteVarName (label : String) : String :=
  ⟨(splitSlash label.data).getLastD []⟩

/-- The label with its last path segment removed
(ComponentPath::getParentPathString in header lines 295-296). -/
def discreteComponentPath (label : String) : String :=
  ⟨joinSlash (splitSlash label.data).dropLast⟩

/-- The component-resolution loop for the discrete-variable table (header
lines 291-299): split each column label into component path and variable
name, and require the component path to exist in the model
(Model::getComponent throws otherwise). -/
def resolveDiscreteComponents (m : AModel) :
    List String → Except AErr (List (String × String))
  | [] => Except.ok []
  | label :: rest =>
    let parent := discreteComponentPath label
    if m.componentPaths.contains parent then
      match resolveDiscreteComponents m rest with
      | Except.ok l => Except.ok ((discreteVarName label, parent) :: l)
      | Except.error e => Except.error e
    else Except.error (AErr.componentNotFound parent)

/-- The events of one successful iteration of the replay loop of `analyze`
(header lines 303-337), in statement order: take the state for the sample
from the states trajectory (line 305), enforce prescribed motions
(model.getSystem().prescribe, line 308), realize to the velocity stage
(line 319), write the controls into the state (model.setControls, line
320), set each provided discrete variable (lines 323-333, one event per
discrete-variable column), and realize to the report stage (line 336), at
which the reporter captures the row. -/
def sampleEvs (i ndv : Nat) : List Ev :=
  [Ev.reconstruct i, Ev.prescribe i, Ev.realizeVelocity i, Ev.setControls i]
    ++ (List.range ndv).map (Ev.setDiscrete i) ++ [Ev.realizeReport i]

/-- The concatenation of the per-sample event blocks for `k` samples
starting at index `i`. -/
def sampleBlock (ndv : Nat) : Nat → Nat → List Ev
  | _, 0 => []
  | i, k + 1 => sampleEvs i ndv ++ sampleBlock ndv (i + 1) k

/-- The replay loop of `analyze` (header lines 303-337) for `k` samples
starting at sample index `i`, threading the controls vector `cv` (the C++
creates the vector once, before the loop, and reuses it across samples).
The controls-vector fill happens between the prescribe call and the
velocity realization, so when it fails the trace of the iteration stops
after the prescribe event. -/
def replayLoop (map : List (String × Nat)) (names : List String)
    (ctrlRows : List (List ℚ)) (ndv : Nat) :
    Nat → Nat → List ℚ → List Ev × Except AErr Unit
  | _, 0, _ => ([], Except.ok ())
  | i, k + 1, cv =>
    match injectControls map names (ctrlRows.getD i []) cv with
    | Except.error e => ([Ev.reconstruct i, Ev.prescribe i], Except.error e)
    | Except.ok cv2 =>
      let t := replayLoop map names ctrlRows ndv (i + 1) k cv2
      (sampleEvs i ndv ++ t.1, t.2)

/-- Modelled from the spec: the TableReporter capture semantics
(TableReporter lives in OpenSim/Common/Reporter.h, outside this header).
Per spec sections 4.5-4.6 the sink captures, at each report-stage
realization, the current value of every registered output in registration
order, producing one output row per input sample; the row times are those
of the states trajectory, which carries one state per states-table row. -/
def reportTable (registered : List AOutput) (statesTable : TimeSeriesTable) :
    TimeSeriesTable :=
  { columnLabels := registered.map AOutput.path
    rows := (List.range statesTable.rows.length).map
      (fun i => registered.map (fun o => o.eval i))
    times := statesTable.times }

/-- The tail of `analyze` after all validation passed: run the replay loop
over every states row and, on success, return the assembled report
table. -/
def analyzeLoop (pre : List Ev) (registered : List AOutput)
    (map : List (String × Nat)) (names : List String)
    (ctrlRows : List (List ℚ)) (ndv : Nat) (statesTable : TimeSeriesTable)
    (cv0 : List ℚ) : List Ev × Except AErr TimeSeriesTable :=
  let lp := replayLoop map names ctrlRows ndv 0 statesTable.rows.length cv0
  match lp.2 with
  | Except.error e => (pre ++ lp.1, Except.error e)
  | Except.ok _ => (pre ++ lp.1, Except.ok (reportTable registered statesTable))

/-- The `analyze` template function (header lines 221-340), embedded in
statement order: collect the matching outputs (lines 235-254); attach the
reporter and re-finalize (lines 255-256, the finalize event); build the
states trajectory (one state per states-table row, lines 258-259); build
the control index map (lines 261-264, may throw the order-mismatch
exception); create the controls vector with one slot per controls-table
column, initialized to zero (line 265); check the states/controls row
counts (lines 267-272); when a discrete-variable table is provided (it has
at least one column), check its row count and resolve its component paths
(lines 278-300); then run the replay loop (lines 302-337) and return the
reporter table (line 339). -/
def analyze (m : AModel) (rmatch : String → String → Bool)
    (statesTable controlsTable : TimeSeriesTable) (outputPaths : List String)
    (discreteVariablesTable : TimeSeriesTable) :
    List Ev × Except AErr TimeSeriesTable :=
  let collected := collectOutputs m.outputs outputPaths rmatch
  let pre := collected.1 ++ [Ev.finalize]
  match createSystemControlIndexMap m with
  | Except.error e => (pre, Except.error e)
  | Except.ok controlMap =>
    let controlNames := controlsTable.columnLabels
    let cv0 : List ℚ := List.replicate controlsTable.columnLabels.length 0
    if statesTable.rows.length = controlsTable.rows.length then
      if discreteVariablesTable.columnLabels.length ≠ 0 then
        if discreteVariablesTable.rows.length = statesTable.rows.length then
          match resolveDiscreteComponents m discreteVariablesTable.columnLabels with
          | Except.error e => (pre, Except.error e)
          | Except.ok _ =>
            analyzeLoop pre collected.2 controlMap controlNames
              controlsTable.rows discreteVariablesTable.columnLabels.length
              statesTable cv0
        else
          (pre, Except.error (AErr.rowCountMismatchDiscrete
            discreteVariablesTable.rows.length statesTable.rows.length))
      else
        analyzeLoop pre collected.2 controlMap controlNames
          controlsTable.rows 0 statesTable cv0
    else
      (pre, Except.error (AErr.rowCountMismatchControls
        statesTable.rows.length controlsTable.rows.length))

/-- The slot layout of the flat state vector SimTK::State::getY of a
model: slot `i` holds `some label` when a state variable with that path
occupies it, and `none` for an unaddressable slot (for example quaternion
padding). -/
structure YLayout where
  slots : List (Option String)

/-- Indexing into the slot list. -/
def nthSlot : List (Option String) → Nat → Option (Option String)
  | [], _ => none
  | a :: _, 0 => some a
  | _ :: rest, j + 1 => nthSlot rest j

/-- Walk the slots from index `k`, producing one map entry per addressable
slot and skipping the empty ones. -/
def yIndexMapAux : List (Option String) → Nat → List (String × Nat)
  | [], _ => []
  | none :: rest, k => yIndexMapAux rest (k + 1)
  | some l :: rest, k => (l, k) :: yIndexMapAux rest (k + 1)

/-- Modelled from the spec: createSystemYIndexMap is declared in the
header (lines 148-152, body in another translation unit); per its doc
comment it provides, for each state variable path string, the index of the
state variable in SimTK::State::getY, where empty slots in Y (for example
quaternion padding) are skipped. -/
def createSystemYIndexMap (m : YLayout) : List (String × Nat) :=
  yIndexMapAux m.slots 0

/-- Modelled from the spec: createStateVariableNamesInSystemOrder is
declared in the header (lines 131-137, body in another translation unit);
per its doc comment it lists the state variable path strings in the order
of SimTK::State::getY, ignoring empty slots. -/
def createStateVariableNamesInSystemOrder (m : YLayout) : List String :=
  m.slots.filterMap id

/-- A three-component vector with rational components, standing in for
SimTK::Vec3. -/
structure Vec3 where
  x : ℚ
  y : ℚ
  z : ℚ
deriving DecidableEq

/-- Componentwise subtraction. -/
def Vec3.sub (a b : Vec3) : Vec3 :=
  ⟨a.x - b.x, a.y - b.y, a.z - b.z⟩

/-- Componentwise negation. -/
def Vec3.neg (a : Vec3) : Vec3 :=
  ⟨-a.x, -a.y, -a.z⟩

/-- The zero vector. -/
def Vec3.zero : Vec3 := ⟨0, 0, 0⟩

/-- Dot product. -/
def Vec3.dot (a b : Vec3) : ℚ :=
  a.x * b.x + a.y * b.y + a.z * b.z

/-- A three-by-three matrix given by its rows, standing in for the
rotation that re-expresses a ground-frame vector in the basis of a body
frame. -/
structure Mat3 where
  r0 : Vec3
  r1 : Vec3
  r2 : Vec3

/-- Matrix-vector product. -/
def Mat3.mulVec (m : Mat3) (v : Vec3) : Vec3 :=
  ⟨m.r0.dot v, m.r1.dot v, m.r2.dot v⟩

/-- One frame at one sample, as the IMU synthesis sees it: the computed
linear acceleration of the frame expressed in ground, and the rotation
from the ground basis to the frame basis at that sample time (obtained
from the realized state). -/
structure IMUFrameSample where
  linearAcceleration : Vec3
  groundToFrame : Mat3

/-- Modelled from the spec: createSyntheticIMUAccelerationSignals is
declared in the header (lines 360-363, body in another translation unit);
per its doc comment and spec section 4.7, for each frame and sample the
gravitational acceleration vector of the model is subtracted from the
computed linear acceleration and the result is re-expressed in the basis
of the frame. -/
def syntheticIMUSample (gravity : Vec3) (s : IMUFrameSample) : Vec3 :=
  s.groundToFrame.mulVec (s.linearAcceleration.sub gravity)

/-- Modelled from the spec: the full IMU table, one column per frame and
one entry per sample, each entry given by `syntheticIMUSample`. -/
def createSyntheticIMUAccelerationSignals (gravity : Vec3)
    (frameColumns : List (List IMUFrameSample)) : List (List Vec3) :=
  frameColumns.map (fun col => col.map (syntheticIMUSample gravity))

/-- Occurrences of the report-stage realization event for sample `i` in a
trace: the number of rows the sink captures for that sample. -/
def countReports (i : Nat) : List Ev → Nat
  | [] => 0
  | e :: rest => (if e = Ev.realizeReport i then 1 else 0) + countReports i rest

/-- A model with two declared controls, consistent ordering, no outputs:
the model of the C1 failing input. -/
def mAB : AModel := ⟨[], ["a", "b"], ["a", "b"], []⟩

/-- A one-row states table. -/
def sOne : TimeSeriesTable := ⟨["/s"], [[0]], [0]⟩

/-- A one-row controls table whose single column names only the second
model control. -/
def cOnlyB : TimeSeriesTable := ⟨["b"], [[5]], [0]⟩

/-- The default (absent) discrete-variable table: no columns. -/
def emptyTable : TimeSeriesTable := ⟨[], [], []⟩

/-- A small model for successful end-to-end runs: one output whose type
matches, one control, one component path. -/
def wModel : AModel :=
  ⟨[⟨"/a|out", true, fun _ => 0⟩], ["a"], ["a"], ["/c"]⟩

/-- A two-row states table for the end-to-end runs. -/
def wStates : TimeSeriesTable := ⟨["/s"], [[1], [2]], [0, 1]⟩

/-- A two-row controls table naming the single model control. -/
def wControls : TimeSeriesTable := ⟨["a"], [[3], [4]], [0, 1]⟩

/-- A two-row discrete-variable table with one resolvable column. -/
def wDvs : TimeSeriesTable := ⟨["/c/v"], [[5], [6]], [0, 1]⟩

/-- A concrete stand-in for the full-string regex match: literal string
equality (the regex engine itself is external to the repository). -/
def wMatch : String → String → Bool := fun s p => s == p

theorem alookup_mem {map : List (String × Nat)} {l : String} {i : Nat}
    (h : alookup map l = some i) : (l, i) ∈ map := by
  induction map with
  | nil => simp [alookup] at h
  | cons p rest ih =>
    obtain ⟨a, b⟩ := p
    by_cases hp : a = l
    · simp only [alookup, if_pos hp] at h
      obtain rfl : b = i := by injection h
      subst hp
      exact List.mem_cons_self _ _
    · simp only [alookup, if_neg hp] at h
      exact List.mem_cons_of_mem _ (ih h)

theorem injectControls_ok_resolves {map : List (String × Nat)} :
    ∀ (names : List String) (row cv v : List ℚ),
      injectControls map names row cv = Except.ok v →
      ∀ l ∈ names, (alookup map l).isSome = true := by
  intro names
  induction names with
  | nil =>
    intro row cv v h l hl
    simp at hl
  | cons n ns ih =>
    intro row cv v h l hl
    cases hn : alookup map n with
    | none => simp [injectControls, hn] at h
    | some idx =>
      simp only [injectControls, hn] at h
      by_cases hidx : idx < cv.length
      · rw [if_pos hidx] at h
        rcases List.mem_cons.mp hl with rfl | hmem
        · rw [hn]; rfl
        · exact ih _ _ _ h l hmem
      · rw [if_neg hidx] at h
        cases h

theorem injectControls_error_of_unresolved {map : List (String × Nat)} :
    ∀ (names : List String) (row cv : List ℚ),
      (∀ p ∈ map, p.2 < cv.length) →
      (∃ l, l ∈ names ∧ alookup map l = none) →
      ∃ l, l ∈ names ∧ alookup map l = none ∧
        injectControls map names row cv = Except.error (AErr.outOfRange l) := by
  intro names
  induction names with
  | nil =>
    intro row cv hin hbad
    obtain ⟨l, hl, _⟩ := hbad
    simp at hl
  | cons n ns ih =>
    intro row cv hin hbad
    cases hn : alookup map n with
    | none =>
      refine ⟨n, List.mem_cons_self _ _, hn, ?_⟩
      simp [injectControls, hn]
    | some idx =>
      have hidx : idx < cv.length := hin (n, idx) (alookup_mem hn)
      obtain ⟨l, hl, hnone⟩ := hbad
      have hlns : l ∈ ns := by
        rcases List.mem_cons.mp hl with rfl | hmem
        · rw [hn] at hnone; cases hnone
        · exact hmem
      obtain ⟨l2, hl2, hn2, herr⟩ :=
        ih row.tail (cv.set idx (row.headD 0))
          (by intro p hp; rw [List.length_set]; exact hin p hp)
          ⟨l, hlns, hnone⟩
      refine ⟨l2, List.mem_cons_of_mem _ hl2, hn2, ?_⟩
      simp only [injectControls, hn, if_pos hidx]
      exact herr

/-- C1: the claim states that every model control whose label is absent
from the controls-table columns is given the value exactly 0.0 in the
controls vector written into the state, and that present labels receive
the row value.  The code (header line 265) sizes the controls vector by
the number of controls-table columns, not by the number of model controls,
contradicting the documented behavior (header line 204).  Evaluated at a
model with two controls `a` (slot 0) and `b` (slot 1): with a controls
table holding only column `b`, the fill writes slot 1 of a length-1 vector
— out of bounds, undefined behavior in the C++ — so `analyze` aborts in
the embedding; with a controls table holding only column `a`, the vector
written into the state is `[5]`, which has no slot 1, so the absent
control `b` is not given 0.0.  With the vector sized by the number of
model controls (the documented intent), the absent control does read
exactly 0. -/
theorem C1_controls_vector_bug :
    (analyze mAB wMatch sOne cOnlyB [] emptyTable).2
        = Except.error (AErr.vectorIndexOOB 1 1)
    ∧ injectControls [("a", 0), ("b", 1)] ["a"] [5] (List.replicate 1 0)
        = Except.ok [5]
    ∧ ([(5 : ℚ)].get? 1 = none)
    ∧ injectControls [("a", 0), ("b", 1)] ["a"] [5] (List.replicate 2 0)
        = Except.ok [5, 0] :=
  ⟨rfl, rfl, rfl, rfl⟩

/-- C10: when a controls-table column label does not name a model control,
the per-sample fill aborts through the map lookup with the out-of-range
error (the std::out_of_range of unordered_map::at), an error distinct from
the descriptive row-count and order-mismatch errors; and the fill
completes only if every column label resolves to a control slot.  The
hypothesis that every map index is within the vector excludes the
unrelated out-of-bounds-write failure mode. -/
theorem C10_unresolved_control_label (map : List (String × Nat))
    (names : List String) (row cv : List ℚ)
    (hin : ∀ p ∈ map, p.2 < cv.length) :
    ((∃ l, l ∈ names ∧ alookup map l = none) →
      ∃ l, l ∈ names ∧ alookup map l = none ∧
        injectControls map names row cv = Except.error (AErr.outOfRange l))
    ∧ (∀ v, injectControls map names row cv = Except.ok v →
        ∀ l ∈ names, (alookup map l).isSome = true)
    ∧ (∀ l a b, AErr.outOfRange l ≠ AErr.rowCountMismatchControls a b
        ∧ AErr.outOfRange l ≠ AErr.rowCountMismatchDiscrete a b
        ∧ AErr.outOfRange l ≠ AErr.internalOrderMismatch) := by
  refine ⟨?_, ?_, by intro l a b; refine ⟨?_, ?_, ?_⟩ <;> intro h <;> cases h⟩
  · intro hbad
    exact injectControls_error_of_unresolved names row cv hin hbad
  · intro v h
    exact injectControls_ok_resolves names row cv v h

/-- Witness for C10 at a concrete input: the map resolves only `a`, the
table has column `b`, and the fill aborts with the out-of-range error. -/
theorem C10_unresolved_control_label_witness :
    ∃ l, l ∈ ["b"] ∧ alookup [("a", 0)] l = none ∧
      injectControls [("a", 0)] ["b"] [1] [0] = Except.error (AErr.outOfRange l) :=
  (C10_unresolved_control_label [("a", 0)] ["b"] [1] [0] (by decide)).1
    ⟨"b", by decide, rfl⟩

theorem matchOne_snd_eq (o : AOutput) (rmatch : String → String → Bool)
    (pats : List String) :
    (matchOne o rmatch pats).2 =
      if o.typeMatch then
        (pats.filter (fun p => rmatch o.path p)).map (fun _ => o)
      else [] := by
  induction pats with
  | nil => simp [matchOne]
  | cons p rest ih =>
    by_cases hm : rmatch o.path p = true
    · by_cases ht : o.typeMatch = true
      · simp [matchOne, hm, ht, List.filter_cons, ih]
      · simp [matchOne, hm, ht, List.filter_cons, ih]
    · by_cases ht : o.typeMatch = true
      · simp [matchOne, hm, ht, List.filter_cons, ih]
      · simp [matchOne, hm, ht, List.filter_cons, ih]

theorem matchOne_mem (o : AOutput) (rmatch : String → String → Bool)
    (pats : List String) (q : AOutput) :
    q ∈ (matchOne o rmatch pats).2 ↔
      q = o ∧ o.typeMatch = true ∧ ∃ p, p ∈ pats ∧ rmatch o.path p = true := by
  rw [matchOne_snd_eq]
  by_cases ht : o.typeMatch = true
  · simp only [ht, if_true, List.mem_map, List.mem_filter]
    constructor
    · rintro ⟨p, ⟨hp, hmp⟩, rfl⟩
      exact ⟨rfl, trivial, p, hp, hmp⟩
    · rintro ⟨rfl, -, p, hp, hmp⟩
      exact ⟨p, ⟨hp, hmp⟩, rfl⟩
  · simp [ht]

theorem matchOne_warn (o : AOutput) (rmatch : String → String → Bool)
    (pats : List String) (ht : o.typeMatch = false)
    (hm : ∃ p, p ∈ pats ∧ rmatch o.path p = true) :
    Ev.warn o.path ∈ (matchOne o rmatch pats).1 := by
  induction pats with
  | nil => obtain ⟨p, hp, _⟩ := hm; simp at hp
  | cons p rest ih =>
    obtain ⟨p2, hp2, hm2⟩ := hm
    by_cases hmp : rmatch o.path p = true
    · simp [matchOne, hmp, ht]
    · rcases List.mem_cons.mp hp2 with rfl | hmem
      · exact absurd hm2 hmp
      · simp only [matchOne, hmp, Bool.false_eq_true, if_false]
        exact ih ⟨p2, hmem, hm2⟩

theorem collectOutputs_mem (outs : List AOutput) (pats : List String)
    (rmatch : String → String → Bool) (q : AOutput) :
    q ∈ (collectOutputs outs pats rmatch).2 ↔
      q ∈ outs ∧ q.typeMatch = true ∧ ∃ p, p ∈ pats ∧ rmatch q.path p = true := by
  induction outs with
  | nil => simp [collectOutputs]
  | cons o rest ih =>
    simp only [collectOutputs, List.mem_append, ih, matchOne_mem, List.mem_cons]
    constructor
    · rintro (⟨rfl, ht, hp⟩ | ⟨hmem, ht, hp⟩)
      · exact ⟨Or.inl rfl, ht, hp⟩
      · exact ⟨Or.inr hmem, ht, hp⟩
    · rintro ⟨rfl | hmem, ht, hp⟩
      · exact Or.inl ⟨rfl, ht, hp⟩
      · exact Or.inr ⟨hmem, ht, hp⟩

theorem collectOutputs_warn (outs : List AOutput) (pats : List String)
    (rmatch : String → String → Bool) (o : AOutput) (ho : o ∈ outs)
    (ht : o.typeMatch = false)
    (hm : ∃ p, p ∈ pats ∧ rmatch o.path p = true) :
    Ev.warn o.path ∈ (collectOutputs outs pats rmatch).1 := by
  induction outs with
  | nil => simp at ho
  | cons o2 rest ih =>
    simp only [collectOutputs, List.mem_append]
    rcases List.mem_cons.mp ho with rfl | hmem
    · exact Or.inl (matchOne_warn _ _ _ ht hm)
    · exact Or.inr (ih hmem)

theorem registerEvents_append (l1 l2 : List Ev) :
    registerEvents (l1 ++ l2) = registerEvents l1 ++ registerEvents l2 := by
  induction l1 with
  | nil => rfl
  | cons e rest ih => cases e <;> simp [registerEvents, ih]

theorem registerEvents_matchOne (o : AOutput) (rmatch : String → String → Bool)
    (pats : List String) :
    registerEvents (matchOne o rmatch pats).1
      = (matchOne o rmatch pats).2.map AOutput.path := by
  induction pats with
  | nil => rfl
  | cons p rest ih =>
    by_cases hm : rmatch o.path p = true
    · by_cases ht : o.typeMatch = true
      · simp [matchOne, hm, ht, registerEvents, ih]
      · simp [matchOne, hm, ht, registerEvents, ih]
    · simp [matchOne, hm, ih]

theorem registerEvents_collect (outs : List AOutput) (pats : List String)
    (rmatch : String → String → Bool) :
    registerEvents (collectOutputs outs pats rmatch).1
      = (collectOutputs outs pats rmatch).2.map AOutput.path := by
  induction outs with
  | nil => rfl
  | cons o rest ih =>
    simp [collectOutputs, registerEvents_append, registerEvents_matchOne, ih]

/-- C3: an output is registered with the report sink if and only if its
full path matches at least one supplied pattern (under the full-string
match predicate, abstracting std::regex_match) and its declared value type
equals the template type; an output matching a pattern with a mismatched
type is not registered and a warning event is emitted, and the collection
phase is a total function that produces no error. -/
theorem C3_output_collection (outs : List AOutput) (pats : List String)
    (rmatch : String → String → Bool) (q : AOutput) :
    (q ∈ (collectOutputs outs pats rmatch).2 ↔
      q ∈ outs ∧ q.typeMatch = true ∧ ∃ p, p ∈ pats ∧ rmatch q.path p = true)
    ∧ (q ∈ outs → q.typeMatch = false →
        (∃ p, p ∈ pats ∧ rmatch q.path p = true) →
        q ∉ (collectOutputs outs pats rmatch).2
          ∧ Ev.warn q.path ∈ (collectOutputs outs pats rmatch).1) := by
  refine ⟨collectOutputs_mem outs pats rmatch q, fun ho ht hm => ⟨?_, collectOutputs_warn outs pats rmatch q ho ht hm⟩⟩
  intro hq
  obtain ⟨-, ht2, -⟩ := (collectOutputs_mem outs pats rmatch q).mp hq
  rw [ht] at ht2
  cases ht2

/-- Witness for C3: a type-matching output whose path equals the single
pattern is registered. -/
theorem C3_output_collection_witness :
    (⟨"/a|out", true, fun _ => 0⟩ : AOutput) ∈
      (collectOutputs [⟨"/a|out", true, fun _ => 0⟩] ["/a|out"] wMatch).2 :=
  (C3_output_collection _ _ _ _).1.mpr
    ⟨List.mem_cons_self _ _, rfl, "/a|out", List.mem_cons_self _ _, rfl⟩

theorem replayLoop_ok_trace (map : List (String × Nat)) (names : List String)
    (ctrlRows : List (List ℚ)) (ndv : Nat) :
    ∀ (k i : Nat) (cv : List ℚ),
      (replayLoop map names ctrlRows ndv i k cv).2 = Except.ok () →
      (replayLoop map names ctrlRows ndv i k cv).1 = sampleBlock ndv i k := by
  intro k
  induction k with
  | zero => intro i cv h; rfl
  | succ k ih =>
    intro i cv h
    cases hj : injectControls map names (ctrlRows.getD i []) cv with
    | error e =>
      rw [replayLoop, hj] at h
      simp at h
    | ok cv2 =>
      rw [replayLoop, hj] at h ⊢
      dsimp only at h ⊢
      rw [sampleBlock, ih (i + 1) cv2 h]

theorem replayLoop_no_register (map : List (String × Nat)) (names : List String)
    (ctrlRows : List (List ℚ)) (ndv : Nat) :
    ∀ (k i : Nat) (cv : List ℚ) (p : String),
      Ev.register p ∉ (replayLoop map names ctrlRows ndv i k cv).1 := by
  intro k
  induction k with
  | zero => intro i cv p h; simp [replayLoop] at h
  | succ k ih =>
    intro i cv p
    cases hj : injectControls map names (ctrlRows.getD i []) cv with
    | error e =>
      rw [replayLoop, hj]
      simp
    | ok cv2 =>
      rw [replayLoop, hj]
      dsimp only
      intro h
      rcases List.mem_append.mp h with h1 | h2
      · simp [sampleEvs] at h1
      · exact ih (i + 1) cv2 p h2

theorem countReports_append (i : Nat) (l1 l2 : List Ev) :
    countReports i (l1 ++ l2) = countReports i l1 + countReports i l2 := by
  induction l1 with
  | nil => simp [countReports]
  | cons e rest ih => simp [countReports, ih, Nat.add_assoc]

theorem countReports_map_setDiscrete (i i2 : Nat) (l : List Nat) :
    countReports i (l.map (Ev.setDiscrete i2)) = 0 := by
  induction l with
  | nil => rfl
  | cons a rest ih => simp [countReports, ih]

theorem countReports_sampleEvs (i i0 ndv : Nat) :
    countReports i (sampleEvs i0 ndv) = if i0 = i then 1 else 0 := by
  simp [sampleEvs, countReports_append, countReports, countReports_map_setDiscrete]

theorem countReports_sampleBlock (ndv : Nat) :
    ∀ (k i0 i : Nat), countReports i (sampleBlock ndv i0 k)
      = if i0 ≤ i ∧ i < i0 + k then 1 else 0 := by
  intro k
  induction k with
  | zero =>
    intro i0 i
    rw [sampleBlock, if_neg (by omega)]
    rfl
  | succ k ih =>
    intro i0 i
    rw [sampleBlock, countReports_append, countReports_sampleEvs, ih (i0 + 1) i]
    split_ifs <;> omega

theorem countReports_matchOne (i : Nat) (o : AOutput)
    (rmatch : String → String → Bool) (pats : List String) :
    countReports i (matchOne o rmatch pats).1 = 0 := by
  induction pats with
  | nil => rfl
  | cons p rest ih =>
    by_cases hm : rmatch o.path p = true
    · by_cases ht : o.typeMatch = true
      · simp [matchOne, hm, ht, countReports, ih]
      · simp [matchOne, hm, ht, countReports, ih]
    · simp [matchOne, hm, ih]

theorem countReports_collect (i : Nat) (outs : List AOutput)
    (pats : List String) (rmatch : String → String → Bool) :
    countReports i (collectOutputs outs pats rmatch).1 = 0 := by
  induction outs with
  | nil => rfl
  | cons o rest ih =>
    simp [collectOutputs, countReports_append, countReports_matchOne, ih]

theorem analyzeLoop_fst (pre : List Ev) (registered : List AOutput)
    (map : List (String × Nat)) (names : List String)
    (ctrlRows : List (List ℚ)) (ndv : Nat) (statesTable : TimeSeriesTable)
    (cv0 : List ℚ) :
    (analyzeLoop pre registered map names ctrlRows ndv statesTable cv0).1
      = pre ++ (replayLoop map names ctrlRows ndv 0
          statesTable.rows.length cv0).1 := by
  cases hl : (replayLoop map names ctrlRows ndv 0 statesTable.rows.length cv0).2 with
  | error e => rw [analyzeLoop, hl]
  | ok u => rw [analyzeLoop, hl]

theorem analyzeLoop_ok (pre : List Ev) (registered : List AOutput)
    (map : List (String × Nat)) (names : List String)
    (ctrlRows : List (List ℚ)) (ndv : Nat) (statesTable : TimeSeriesTable)
    (cv0 : List ℚ) (tr : List Ev) (tbl : TimeSeriesTable)
    (h : analyzeLoop pre registered map names ctrlRows ndv statesTable cv0
      = (tr, Except.ok tbl)) :
    tr = pre ++ sampleBlock ndv 0 statesTable.rows.length
    ∧ tbl = reportTable registered statesTable := by
  cases hl : (replayLoop map names ctrlRows ndv 0 statesTable.rows.length cv0).2 with
  | error e =>
    rw [analyzeLoop, hl] at h
    simp at h
  | ok u =>
    cases u
    rw [analyzeLoop, hl] at h
    dsimp only at h
    injection h with h1 h2
    injection h2 with h3
    refine ⟨?_, h3.symm⟩
    rw [← h1,
      replayLoop_ok_trace map names ctrlRows ndv statesTable.rows.length 0 cv0 hl]

theorem analyze_ok_shape (m : AModel) (rmatch : String → String → Bool)
    (states controls dvs : TimeSeriesTable) (paths : List String)
    (tr : List Ev) (tbl : TimeSeriesTable)
    (h : analyze m rmatch states controls paths dvs = (tr, Except.ok tbl)) :
    tr = (collectOutputs m.outputs paths rmatch).1 ++ [Ev.finalize]
        ++ sampleBlock dvs.columnLabels.length 0 states.rows.length
    ∧ tbl = reportTable (collectOutputs m.outputs paths rmatch).2 states := by
  simp only [analyze] at h
  cases hc : createSystemControlIndexMap m with
  | error e =>
    rw [hc] at h
    simp at h
  | ok cmap =>
    rw [hc] at h
    dsimp only at h
    by_cases h1 : states.rows.length = controls.rows.length
    · rw [if_pos h1] at h
      by_cases h2 : dvs.columnLabels.length ≠ 0
      · rw [if_pos h2] at h
        by_cases h3 : dvs.rows.length = states.rows.length
        · rw [if_pos h3] at h
          cases hr : resolveDiscreteComponents m dvs.columnLabels with
          | error e =>
            rw [hr] at h
            simp at h
          | ok refs =>
            rw [hr] at h
            dsimp only at h
            exact analyzeLoop_ok _ _ _ _ _ _ _ _ _ _ h
        · rw [if_neg h3] at h
          simp at h
      · rw [if_neg h2] at h
        have h0 : dvs.columnLabels.length = 0 := by omega
        rw [h0]
        exact analyzeLoop_ok _ _ _ _ _ _ _ _ _ _ h
    · rw [if_neg h1] at h
      simp at h

/-- C4: on every successful run, the trace is the collection events, then
the finalize event, then for each sample index in row order exactly the
block `sampleEvs`: state reconstruction, prescribed-motion enforcement,
velocity-stage realization, writing the controls into the state, the
discrete-variable writes (one per provided column), and the report-stage
realization; and each sample index below the row count has exactly one
report-stage realization in the whole trace, at which the sink captures
its row. -/
theorem C4_per_sample_order (m : AModel) (rmatch : String → String → Bool)
    (states controls dvs : TimeSeriesTable) (paths : List String)
    (tr : List Ev) (tbl : TimeSeriesTable)
    (h : analyze m rmatch states controls paths dvs = (tr, Except.ok tbl)) :
    tr = (collectOutputs m.outputs paths rmatch).1 ++ [Ev.finalize]
        ++ sampleBlock dvs.columnLabels.length 0 states.rows.length
    ∧ (∀ i, i < states.rows.length → countReports i tr = 1) := by
  obtain ⟨h1, -⟩ := analyze_ok_shape m rmatch states controls dvs paths tr tbl h
  refine ⟨h1, ?_⟩
  intro i hi
  rw [h1, countReports_append, countReports_append, countReports_collect,
    countReports_sampleBlock]
  have hf : countReports i [Ev.finalize] = 0 := by simp [countReports]
  rw [hf, if_pos (by omega)]

/-- Witness for C4: a full two-sample run with one registered output and
one discrete-variable column. -/
theorem C4_per_sample_order_witness :
    ((analyze wModel wMatch wStates wControls ["/a|out"] wDvs).1
      = (collectOutputs wModel.outputs ["/a|out"] wMatch).1 ++ [Ev.finalize]
        ++ sampleBlock wDvs.columnLabels.length 0 wStates.rows.length)
    ∧ (∀ i, i < wStates.rows.length →
        countReports i (analyze wModel wMatch wStates wControls ["/a|out"] wDvs).1
          = 1) :=
  C4_per_sample_order wModel wMatch wStates wControls wDvs ["/a|out"]
    (analyze wModel wMatch wStates wControls ["/a|out"] wDvs).1
    ⟨["/a|out"], [[0], [0]], [0, 1]⟩ rfl

/-- C5: on every successful run, the returned table has exactly one row
per states-table row, its times are the states-table times, and its
columns are exactly the outputs matched during collection, in the order
they were registered with the report sink (the register-event order). -/
theorem C5_output_table_shape (m : AModel) (rmatch : String → String → Bool)
    (states controls dvs : TimeSeriesTable) (paths : List String)
    (tr : List Ev) (tbl : TimeSeriesTable)
    (h : analyze m rmatch states controls paths dvs = (tr, Except.ok tbl)) :
    tbl.rows.length = states.rows.length
    ∧ tbl.columnLabels = (collectOutputs m.outputs paths rmatch).2.map AOutput.path
    ∧ tbl.columnLabels = registerEvents (collectOutputs m.outputs paths rmatch).1
    ∧ tbl.times = states.times := by
  obtain ⟨-, h2⟩ := analyze_ok_shape m rmatch states controls dvs paths tr tbl h
  subst h2
  refine ⟨?_, rfl, ?_, rfl⟩
  · simp [reportTable]
  · rw [registerEvents_collect]
    rfl

/-- Witness for C5: the same two-sample run yields a 2-row, 1-column
table. -/
theorem C5_output_table_shape_witness :
    (⟨["/a|out"], [[0], [0]], [0, 1]⟩ : TimeSeriesTable).rows.length
        = wStates.rows.length
    ∧ (⟨["/a|out"], [[0], [0]], [0, 1]⟩ : TimeSeriesTable).columnLabels
        = (collectOutputs wModel.outputs ["/a|out"] wMatch).2.map AOutput.path
    ∧ (⟨["/a|out"], [[0], [0]], [0, 1]⟩ : TimeSeriesTable).columnLabels
        = registerEvents (collectOutputs wModel.outputs ["/a|out"] wMatch).1
    ∧ (⟨["/a|out"], [[0], [0]], [0, 1]⟩ : TimeSeriesTable).times = wStates.times :=
  C5_output_table_shape wModel wMatch wStates wControls wDvs ["/a|out"]
    (analyze wModel wMatch wStates wControls ["/a|out"] wDvs).1
    ⟨["/a|out"], [[0], [0]], [0, 1]⟩ rfl

/-- C9: on every run, successful or not, the trace starts with all the
collection events (every register event among them) followed by the
finalize event (attaching the reporter and re-running initSystem), and no
register event occurs after the finalize event. -/
theorem C9_registration_before_finalize (m : AModel)
    (rmatch : String → String → Bool) (states controls dvs : TimeSeriesTable)
    (paths : List String) :
    ∃ rest, (analyze m rmatch states controls paths dvs).1
        = (collectOutputs m.outputs paths rmatch).1 ++ Ev.finalize :: rest
      ∧ ∀ p, Ev.register p ∉ rest := by
  simp only [analyze]
  cases hc : createSystemControlIndexMap m with
  | error e =>
    refine ⟨[], ?_, by simp⟩
    rfl
  | ok cmap =>
    dsimp only
    by_cases h1 : states.rows.length = controls.rows.length
    · rw [if_pos h1]
      by_cases h2 : dvs.columnLabels.length ≠ 0
      · rw [if_pos h2]
        by_cases h3 : dvs.rows.length = states.rows.length
        · rw [if_pos h3]
          cases hr : resolveDiscreteComponents m dvs.columnLabels with
          | error e =>
            refine ⟨[], ?_, by simp⟩
            rfl
          | ok refs =>
            dsimp only
            refine ⟨(replayLoop cmap controls.columnLabels controls.rows
                dvs.columnLabels.length 0 states.rows.length
                (List.replicate controls.columnLabels.length 0)).1, ?_, ?_⟩
            · rw [analyzeLoop_fst, List.append_assoc]
              rfl
            · intro p
              exact replayLoop_no_register _ _ _ _ _ _ _ p
        · rw [if_neg h3]
          refine ⟨[], ?_, by simp⟩
          rfl
      · rw [if_neg h2]
        refine ⟨(replayLoop cmap controls.columnLabels controls.rows 0 0
            states.rows.length
            (List.replicate controls.columnLabels.length 0)).1, ?_, ?_⟩
        · rw [analyzeLoop_fst, List.append_assoc]
          rfl
        · intro p
          exact replayLoop_no_register _ _ _ _ _ _ _ p
    · rw [if_neg h1]
      refine ⟨[], ?_, by simp⟩
      rfl

/-- C2: with a consistent model, mismatched states/controls row counts
abort `analyze` with the descriptive states/controls row-count error, and
a provided discrete-variable table (at least one column) with a row count
different from the states table aborts with the descriptive
discrete-variable row-count error; each error carries the two counts and
no output table is produced. -/
theorem C2_row_count_mismatch (m : AModel) (rmatch : String → String → Bool)
    (states controls dvs : TimeSeriesTable) (paths : List String)
    (hm : m.declaredControlNames = m.systemControlNames) :
    (states.rows.length ≠ controls.rows.length →
      (analyze m rmatch states controls paths dvs).2
        = Except.error (AErr.rowCountMismatchControls states.rows.length
            controls.rows.length))
    ∧ (states.rows.length = controls.rows.length →
        dvs.columnLabels.length ≠ 0 →
        dvs.rows.length ≠ states.rows.length →
        (analyze m rmatch states controls paths dvs).2
          = Except.error (AErr.rowCountMismatchDiscrete dvs.rows.length
              states.rows.length)) := by
  have hc : createSystemControlIndexMap m
      = Except.ok (enumerateNames m.declaredControlNames 0) := by
    rw [createSystemControlIndexMap, checkOrderSystemControls, if_pos hm]
  constructor
  · intro h1
    simp only [analyze, hc]
    rw [if_neg h1]
  · intro h1 h2 h3
    simp only [analyze, hc]
    rw [if_pos h1, if_pos h2, if_neg h3]

/-- Witness for C2: a two-row states table against a one-row controls
table aborts with the states/controls row-count error. -/
theorem C2_row_count_mismatch_witness :
    (analyze wModel wMatch wStates ⟨["a"], [[3]], [0]⟩ ["/a|out"] emptyTable).2
      = Except.error (AErr.rowCountMismatchControls 2 1) :=
  (C2_row_count_mismatch wModel wMatch wStates ⟨["a"], [[3]], [0]⟩ emptyTable
    ["/a|out"] rfl).1 (by decide)

/-- C6: building the control index map succeeds exactly when the
model-declared actuator order matches the order of the flat control
vector, any difference makes it fail with the internal order-mismatch
error, and that error is a constructor distinct from the input-validation
row-count errors. -/
theorem C6_control_order_check (m : AModel) :
    ((∃ map, createSystemControlIndexMap m = Except.ok map) ↔
      m.declaredControlNames = m.systemControlNames)
    ∧ (m.declaredControlNames ≠ m.systemControlNames →
        createSystemControlIndexMap m = Except.error AErr.internalOrderMismatch)
    ∧ (∀ a b, AErr.internalOrderMismatch ≠ AErr.rowCountMismatchControls a b
        ∧ AErr.internalOrderMismatch ≠ AErr.rowCountMismatchDiscrete a b) := by
  have herr : ∀ (hm : m.declaredControlNames ≠ m.systemControlNames),
      createSystemControlIndexMap m = Except.error AErr.internalOrderMismatch := by
    intro hm
    rw [createSystemControlIndexMap, checkOrderSystemControls, if_neg hm]
  refine ⟨?_, herr, ?_⟩
  · constructor
    · rintro ⟨map, hmap⟩
      by_cases hm : m.declaredControlNames = m.systemControlNames
      · exact hm
      · rw [herr hm] at hmap
        cases hmap
    · intro hm
      refine ⟨enumerateNames m.declaredControlNames 0, ?_⟩
      rw [createSystemControlIndexMap, checkOrderSystemControls, if_pos hm]
  · intro a b
    refine ⟨?_, ?_⟩ <;> intro h <;> cases h

/-- Witness for C6: swapping the two control names makes the map builder
fail with the internal order-mismatch error. -/
theorem C6_control_order_check_witness :
    createSystemControlIndexMap ⟨[], ["a", "b"], ["b", "a"], []⟩
      = Except.error AErr.internalOrderMismatch :=
  (C6_control_order_check ⟨[], ["a", "b"], ["b", "a"], []⟩).2.1 (by decide)

theorem mem_filterMap_of_nthSlot {slots : List (Option String)} :
    ∀ {j : Nat} {l : String}, nthSlot slots j = some (some l) →
      l ∈ slots.filterMap id := by
  induction slots with
  | nil => intro j l h; cases h
  | cons a rest ih =>
    intro j l h
    cases j with
    | zero =>
      injection h with h2
      subst h2
      simp
    | succ j2 =>
      cases a with
      | none =>
        simpa using ih h
      | some b =>
        simpa using Or.inr (ih h)

theorem alookup_yIndexMapAux :
    ∀ (slots : List (Option String)) (k j : Nat) (l : String),
      (slots.filterMap id).Nodup →
      nthSlot slots j = some (some l) →
      alookup (yIndexMapAux slots k) l = some (k + j) := by
  intro slots
  induction slots with
  | nil => intro k j l hnd h; cases h
  | cons a rest ih =>
    intro k j l hnd h
    cases a with
    | none =>
      cases j with
      | zero => injection h with h2; cases h2
      | succ j2 =>
        have hnd2 : (rest.filterMap id).Nodup := by simpa using hnd
        rw [yIndexMapAux, ih (k + 1) j2 l hnd2 h]
        congr 1
        omega
    | some b =>
      have hnd2 : b ∉ rest.filterMap id ∧ (rest.filterMap id).Nodup := by
        rw [← List.nodup_cons]
        simpa using hnd
      cases j with
      | zero =>
        injection h with h2
        injection h2 with h3
        subst h3
        rw [yIndexMapAux, alookup, if_pos rfl, Nat.add_zero]
      | succ j2 =>
        have hl : l ∈ rest.filterMap id := mem_filterMap_of_nthSlot h
        have hbl : b ≠ l := by
          intro heq
          subst heq
          exact hnd2.1 hl
        rw [yIndexMapAux, alookup, if_neg hbl, ih (k + 1) j2 l hnd2.2 h]
        congr 1
        omega

theorem mem_yIndexMapAux :
    ∀ (slots : List (Option String)) (k : Nat) (l : String) (i : Nat),
      (l, i) ∈ yIndexMapAux slots k →
      ∃ j, i = k + j ∧ nthSlot slots j = some (some l) := by
  intro slots
  induction slots with
  | nil => intro k l i h; simp [yIndexMapAux] at h
  | cons a rest ih =>
    intro k l i h
    cases a with
    | none =>
      rw [yIndexMapAux] at h
      obtain ⟨j, hj, hs⟩ := ih (k + 1) l i h
      exact ⟨j + 1, by omega, hs⟩
    | some b =>
      rw [yIndexMapAux] at h
      rcases List.mem_cons.mp h with heq | hmem
      · rw [Prod.mk.injEq] at heq
        obtain ⟨h1, h2⟩ := heq
        subst h1
        subst h2
        exact ⟨0, by omega, rfl⟩
      · obtain ⟨j, hj, hs⟩ := ih (k + 1) l i hmem
        exact ⟨j + 1, by omega, hs⟩

/-- C7: with pairwise-distinct state-variable labels, the label-to-slot
map built by the Y-index builder is a bijection between labels and the
addressable slots of the flat state vector: any addressable slot maps to
its label and back to the same slot, any map entry points back to a slot
holding exactly that label (so unaddressable padding slots are never
targets of the map), and the two directions compose to the identity. -/
theorem C7_yindex_bijection (m : YLayout)
    (hnd : (createStateVariableNamesInSystemOrder m).Nodup) :
    (∀ i l, nthSlot m.slots i = some (some l) →
      alookup (createSystemYIndexMap m) l = some i)
    ∧ (∀ l i, alookup (createSystemYIndexMap m) l = some i →
      nthSlot m.slots i = some (some l)) := by
  constructor
  · intro i l h
    have h2 := alookup_yIndexMapAux m.slots 0 i l hnd h
    simpa using h2
  · intro l i h
    obtain ⟨j, hj, hs⟩ := mem_yIndexMapAux m.slots 0 l i (alookup_mem h)
    have hij : j = i := by omega
    subst hij
    exact hs

/-- Witness for C7 on a layout with a padding slot: the label of slot 2
maps back to slot 2, and the map resolves it. -/
theorem C7_yindex_bijection_witness :
    alookup (createSystemYIndexMap ⟨[some "/q/value", none, some "/q/speed"]⟩)
      "/q/speed" = some 2 :=
  (C7_yindex_bijection ⟨[some "/q/value", none, some "/q/speed"]⟩ (by decide)).1
    2 "/q/speed" rfl

/-- C8: for each frame and sample the synthesized signal equals the
frame-expressed difference of the computed linear acceleration and
gravity, which by linearity is the frame-expressed linear acceleration
minus the frame-expressed gravity; in particular, for a frame whose
computed linear acceleration is zero (at rest, no model-applied
acceleration) the signal is exactly the negated frame-expressed
gravitational acceleration vector. -/
theorem C8_imu_signal (g : Vec3) (s : IMUFrameSample) :
    syntheticIMUSample g s
        = (s.groundToFrame.mulVec s.linearAcceleration).sub
            (s.groundToFrame.mulVec g)
    ∧ (s.linearAcceleration = Vec3.zero →
        syntheticIMUSample g s = Vec3.neg (s.groundToFrame.mulVec g)) := by
  obtain ⟨⟨ax, ay, az⟩, ⟨⟨r00, r01, r02⟩, ⟨r10, r11, r12⟩, ⟨r20, r21, r22⟩⟩⟩ := s
  obtain ⟨gx, gy, gz⟩ := g
  constructor
  · simp only [syntheticIMUSample, Mat3.mulVec, Vec3.sub, Vec3.dot]
    rw [Vec3.mk.injEq]
    refine ⟨?_, ?_, ?_⟩ <;> ring
  · intro h
    rw [show Vec3.zero = (⟨0, 0, 0⟩ : Vec3) from rfl, Vec3.mk.injEq] at h
    obtain ⟨h1, h2, h3⟩ := h
    subst h1
    subst h2
    subst h3
    simp only [syntheticIMUSample, Mat3.mulVec, Vec3.sub, Vec3.dot, Vec3.neg]
    rw [Vec3.mk.injEq]
    refine ⟨?_, ?_, ?_⟩ <;> ring

/-- Witness for C8: a frame at rest with identity orientation and gravity
pointing down yields the negated frame-expressed gravity vector. -/
theorem C8_imu_signal_witness :
    syntheticIMUSample ⟨0, 0, -(981 / 100)⟩
        ⟨Vec3.zero, ⟨⟨1, 0, 0⟩, ⟨0, 1, 0⟩, ⟨0, 0, 1⟩⟩⟩
      = Vec3.neg (Mat3.mulVec ⟨⟨1, 0, 0⟩, ⟨0, 1, 0⟩, ⟨0, 0, 1⟩⟩
          ⟨0, 0, -(981 / 100)⟩) :=
  (C8_imu_signal ⟨0, 0, -(981 / 100)⟩
    ⟨Vec3.zero, ⟨⟨1, 0, 0⟩, ⟨0, 1, 0⟩, ⟨0, 0, 1⟩⟩⟩).2 rfl
